import Mathlib

/-!
# Verification of the product-api core logic

A shallow embedding of the `app/` package (crud.py, search.py, schemas.py,
api/products.py, api/users.py) of the Bonker009/product-api repository.

Conventions of the embedding:
* The SQLAlchemy session is replaced by an explicit `DB` value (lists of rows,
  in insertion order); `query(...).filter(...).first()` becomes `List.find?`,
  `offset/limit` become `List.drop`/`List.take`, in-place row mutation becomes
  replacement of the first row with the matched primary key.
* `raise HTTPException(status_code, detail)` becomes an `Except HTTPError`
  result; an `error` result leaves the store untouched (the source raises
  before any `db.add`/`db.commit` on these paths).
* SQL floats only ever get compared in the code under verification, so prices
  are embedded as `Int` (any ordered embedding of the float values works).
* SQL `ilike "%s%"` is embedded as case-insensitive substring containment
  (the searched strings contain no `%`/`_` wildcards in any claim considered).
* Python strings are Lean `String`s; character-level operations (`str.lower`,
  `str.upper`, `str.split()`, `str.strip()`, `re.sub`) are embedded over
  `List Char` for ASCII, matching Python's behaviour on the ASCII range.
-/

namespace ProductApi

/-- Python `str.lower` on one character (ASCII). -/
def pyLower (c : Char) : Char :=
  match c with
  | 'A' => 'a' | 'B' => 'b' | 'C' => 'c' | 'D' => 'd' | 'E' => 'e' | 'F' => 'f'
  | 'G' => 'g' | 'H' => 'h' | 'I' => 'i' | 'J' => 'j' | 'K' => 'k' | 'L' => 'l'
  | 'M' => 'm' | 'N' => 'n' | 'O' => 'o' | 'P' => 'p' | 'Q' => 'q' | 'R' => 'r'
  | 'S' => 's' | 'T' => 't' | 'U' => 'u' | 'V' => 'v' | 'W' => 'w' | 'X' => 'x'
  | 'Y' => 'y' | 'Z' => 'z'
  | c => c

/-- Python `str.upper` on one character (ASCII). -/
def pyUpper (c : Char) : Char :=
  match c with
  | 'a' => 'A' | 'b' => 'B' | 'c' => 'C' | 'd' => 'D' | 'e' => 'E' | 'f' => 'F'
  | 'g' => 'G' | 'h' => 'H' | 'i' => 'I' | 'j' => 'J' | 'k' => 'K' | 'l' => 'L'
  | 'm' => 'M' | 'n' => 'N' | 'o' => 'O' | 'p' => 'P' | 'q' => 'Q' | 'r' => 'R'
  | 's' => 'S' | 't' => 'T' | 'u' => 'U' | 'v' => 'V' | 'w' => 'W' | 'x' => 'X'
  | 'y' => 'Y' | 'z' => 'Z'
  | c => c

/-- Python `s.upper()` on a whole string. -/
def strUpper (s : String) : String := String.mk (s.data.map pyUpper)

/-- Python `s.lower()` on a whole string. -/
def strLower (s : String) : String := String.mk (s.data.map pyLower)

/-- Tests whether `needle` occurs as a contiguous substring of `hay` (Python `in`, SQL `LIKE %needle%`). -/
def isSub (needle : List Char) : List Char → Bool
  | [] => needle.isEmpty
  | c :: t => needle.isPrefixOf (c :: t) || isSub needle t

/-- SQL `field ILIKE "%pat%"`: case-insensitive substring containment. -/
def ciSub (pat : List Char) (field : List Char) : Bool :=
  isSub (pat.map pyLower) (field.map pyLower)

/-- Case-insensitive `ILIKE` against a nullable column: SQL `NULL ILIKE ...` is not a match. -/
def ciSubOpt (pat : List Char) : Option String → Bool
  | none => false
  | some s => ciSub pat s.data

/-- Python truthiness of an `Optional[str]`: `None` and `""` are falsy. -/
def strTruthy : Option String → Bool
  | none => false
  | some s => !(s == "")

/-- Python `str.split()` (no separator): maximal non-whitespace runs, in
order, dropping empty pieces; `acc` holds the reversed current run. -/
def wsTokensAux : List Char → List Char → List (List Char)
  | [], acc => if acc.isEmpty then [] else [acc.reverse]
  | c :: rest, acc =>
    if c.isWhitespace then
      if acc.isEmpty then wsTokensAux rest [] else acc.reverse :: wsTokensAux rest []
    else wsTokensAux rest (c :: acc)

/-- Python `re.sub(r'\s+', ' ', ...)`: collapse each maximal whitespace run
to a single space; the flag records whether the previous character was
whitespace. -/
def collapseWsAux : List Char → Bool → List Char
  | [], _ => []
  | c :: rest, prevWs =>
    if c.isWhitespace then
      if prevWs then collapseWsAux rest true else ' ' :: collapseWsAux rest true
    else c :: collapseWsAux rest false

/-- Python `str.strip()`: drop leading and trailing whitespace. -/
def stripWs (l : List Char) : List Char :=
  ((l.dropWhile Char.isWhitespace).reverse.dropWhile Char.isWhitespace).reverse

/-- Row of the `users` table (app/models.py `User`). -/
structure User where
  id : Nat
  email : String
  username : String
  hashed_password : String
  full_name : Option String
  is_active : Bool
  is_superuser : Bool
deriving DecidableEq

/-- Row of the `products` table (app/models.py `Product`). -/
structure Product where
  id : Nat
  name : String
  description : Option String
  price : Int
  stock_quantity : Nat
  category : Option String
  sku : String
  is_active : Bool
  owner_id : Nat
deriving DecidableEq

/-- The persistent store: both tables, rows in insertion order. -/
structure DB where
  users : List User
  products : List Product
deriving DecidableEq

/-- Embeds `raise HTTPException(status_code=..., detail=...)`. -/
structure HTTPError where
  status_code : Nat
  detail : String
deriving DecidableEq

/-- crud.get_user: `db.query(User).filter(User.id == user_id).first()`. -/
def get_user (db : DB) (user_id : Nat) : Option User :=
  db.users.find? (fun u => u.id == user_id)

/-- crud.get_user_by_email. -/
def get_user_by_email (db : DB) (email : String) : Option User :=
  db.users.find? (fun u => u.email == email)

/-- crud.get_user_by_username. -/
def get_user_by_username (db : DB) (username : String) : Option User :=
  db.users.find? (fun u => u.username == username)

/-- crud.get_product. -/
def get_product (db : DB) (product_id : Nat) : Option Product :=
  db.products.find? (fun p => p.id == product_id)

/-- crud.get_product_by_sku: matches against `sku.upper()`. -/
def get_product_by_sku (db : DB) (sku : String) : Option Product :=
  db.products.find? (fun p => p.sku == strUpper sku)

/-- crud.get_products: the filter/offset/limit pipeline, in source order.
`if category:` and `if search:` are Python truthiness tests, while the price
bounds are `is not None` tests. The `search` filter `ILIKE`s name,
description and SKU (not category). -/
def get_products (db : DB) (skip : Nat) (limit : Nat)
    (category : Option String) (search : Option String)
    (min_price : Option Int) (max_price : Option Int)
    (active_only : Bool) : List Product :=
  let q := db.products
  let q := if active_only then q.filter (fun p => p.is_active) else q
  let q := if strTruthy category then
      q.filter (fun p => p.category == some (category.getD "")) else q
  let q := if strTruthy search then
      q.filter (fun p =>
        ciSub (search.getD "").data p.name.data ||
        ciSubOpt (search.getD "").data p.description ||
        ciSub (search.getD "").data p.sku.data)
    else q
  let q := match min_price with
    | some m => q.filter (fun (p : Product) => m ≤ p.price)
    | none => q
  let q := match max_price with
    | some m => q.filter (fun (p : Product) => p.price ≤ m)
    | none => q
  (q.drop skip).take limit

/-- Response schema of `GET /products` (schemas.PaginatedResponse). -/
structure PaginatedResponse where
  items : List Product
  total : Nat
  page : Nat
  size : Nat
  pages : Nat
deriving DecidableEq

/-- api/products.read_products: the `GET /products` endpoint body.
The total is computed as `len(get_products(db, category=..., ...))`, i.e.
a second `get_products` call that leaves `skip` and `limit` at their
**defaults** `skip=0, limit=100` (crud.py line 124). -/
def read_products (db : DB) (skip : Nat) (limit : Nat)
    (category : Option String) (search : Option String)
    (min_price : Option Int) (max_price : Option Int)
    (active_only : Bool) : PaginatedResponse :=
  let products := get_products db skip limit category search min_price max_price active_only
  let total_products :=
    (get_products db 0 100 category search min_price max_price active_only).length
  let pages := (total_products + limit - 1) / limit
  let page := skip / limit + 1
  { items := products, total := total_products, page := page, size := limit, pages := pages }

/-- The number the claim calls `total`: the count of records matching the
filters of `get_products` ignoring `skip` and `limit`. -/
def matching_count (db : DB)
    (category : Option String) (search : Option String)
    (min_price : Option Int) (max_price : Option Int)
    (active_only : Bool) : Nat :=
  (get_products db 0 db.products.length category search min_price max_price active_only).length

/-- Payload of `POST /auth/register` (schemas.UserCreate). -/
structure UserCreate where
  email : String
  username : String
  password : String
  full_name : Option String
deriving DecidableEq

/-- Payload of `PUT /users/{id}` (schemas.UserUpdate): every field optional,
`none` meaning "not supplied" (pydantic `exclude_unset`). The nullable column
`full_name` can also be supplied as an explicit null, hence `Option (Option _)`.
The schema carries no `is_superuser` and no password field. -/
structure UserUpdate where
  email : Option String
  username : Option String
  full_name : Option (Option String)
  is_active : Option Bool
deriving DecidableEq

/-- Payload of `PUT /products/{id}` (schemas.ProductUpdate): optional fields,
`none` = not supplied; nullable columns (`description`, `category`) may be
supplied as explicit nulls. The schema deliberately has **no `sku` field**
("SKU cannot be updated after creation"), so a `sku` key in the request body
is dropped by the schema layer; crud.update_product additionally deletes a
`"sku"` entry from `update_data`, which is unreachable given the schema. -/
structure ProductUpdate where
  name : Option String
  description : Option (Option String)
  price : Option Int
  stock_quantity : Option Nat
  category : Option (Option String)
  is_active : Option Bool
deriving DecidableEq

/-- The `for field, value in update_data.items(): setattr(db_user, field, value)`
loop of crud.update_user: supplied fields overwrite, unsupplied ones persist. -/
def applyUserUpdate (u : User) (uu : UserUpdate) : User :=
  { u with
    email := uu.email.getD u.email,
    username := uu.username.getD u.username,
    full_name := uu.full_name.getD u.full_name,
    is_active := uu.is_active.getD u.is_active }

/-- The `setattr` loop of crud.update_product (after the `"sku"` key, were it
present, has been deleted from `update_data`). -/
def applyProductUpdate (p : Product) (pu : ProductUpdate) : Product :=
  { p with
    name := pu.name.getD p.name,
    description := pu.description.getD p.description,
    price := pu.price.getD p.price,
    stock_quantity := pu.stock_quantity.getD p.stock_quantity,
    category := pu.category.getD p.category,
    is_active := pu.is_active.getD p.is_active }

/-- Committing an in-place mutation of the row `.first()` returned: replace the
first row carrying the matched id. -/
def setUser : List User → Nat → User → List User
  | [], _, _ => []
  | u :: rest, uid, u' => if u.id == uid then u' :: rest else u :: setUser rest uid u'

/-- Embeds `db.delete(db_user)`: remove the row `.first()` returned. -/
def removeUser : List User → Nat → List User
  | [], _ => []
  | u :: rest, uid => if u.id == uid then rest else u :: removeUser rest uid

/-- Replace the first product row carrying the matched id. -/
def setProduct : List Product → Nat → Product → List Product
  | [], _, _ => []
  | p :: rest, pid, p' => if p.id == pid then p' :: rest else p :: setProduct rest pid p'

/-- Embeds `db.delete(db_product)`: remove the row `.first()` returned. -/
def removeProduct : List Product → Nat → List Product
  | [], _ => []
  | p :: rest, pid => if p.id == pid then rest else p :: removeProduct rest pid

/-- crud.create_user. The password hash function lives in app/auth.py
(`get_password_hash`) and is irrelevant to the control flow, so it is passed
in abstractly; the store assigns the fresh id `newId`. `is_active`/`is_superuser`
take the column defaults `true`/`false` (models.py) since the constructor
omits them. On error nothing is inserted (the source raises before `db.add`). -/
def create_user (hashF : String → String) (db : DB) (uc : UserCreate)
    (newId : Nat) : Except HTTPError (User × DB) :=
  if (get_user_by_email db uc.email).isSome then
    .error ⟨400, "Email already registered"⟩
  else if (get_user_by_username db uc.username).isSome then
    .error ⟨400, "Username already taken"⟩
  else
    let db_user : User :=
      { id := newId, email := uc.email, username := uc.username,
        hashed_password := hashF uc.password, full_name := uc.full_name,
        is_active := true, is_superuser := false }
    .ok (db_user, { db with users := db.users ++ [db_user] })

/-- crud.update_user: 404 on missing id, then uniqueness re-checks for a
supplied email/username against *other* rows, then the field-by-field apply. -/
def update_user (db : DB) (user_id : Nat) (uu : UserUpdate) :
    Except HTTPError (User × DB) :=
  match get_user db user_id with
  | none => .error ⟨404, "User not found"⟩
  | some db_user =>
    let emailConflict := match uu.email with
      | some e => match get_user_by_email db e with
        | some existing => existing.id != user_id
        | none => false
      | none => false
    if emailConflict then .error ⟨400, "Email already registered"⟩
    else
      let usernameConflict := match uu.username with
        | some n => match get_user_by_username db n with
          | some existing => existing.id != user_id
          | none => false
        | none => false
      if usernameConflict then .error ⟨400, "Username already taken"⟩
      else
        let u' := applyUserUpdate db_user uu
        .ok (u', { db with users := setUser db.users user_id u' })

/-- crud.delete_user: 404 on missing id, else the row is removed. -/
def delete_user (db : DB) (user_id : Nat) : Except HTTPError DB :=
  match get_user db user_id with
  | none => .error ⟨404, "User not found"⟩
  | some _ => .ok { db with users := removeUser db.users user_id }

/-- crud.update_product: 404 on missing id, then the ownership/superuser
check, then the field apply (`update_data` cannot contain `"sku"`, see
`ProductUpdate`). -/
def update_product (db : DB) (product_id : Nat) (pu : ProductUpdate)
    (current_user : User) : Except HTTPError (Product × DB) :=
  match get_product db product_id with
  | none => .error ⟨404, "Product not found"⟩
  | some db_product =>
    if db_product.owner_id != current_user.id && !current_user.is_superuser then
      .error ⟨403, "Not enough permissions to update this product"⟩
    else
      let p' := applyProductUpdate db_product pu
      .ok (p', { db with products := setProduct db.products product_id p' })

/-- crud.delete_product: 404 on missing id, then the ownership/superuser
check, then the row is removed. -/
def delete_product (db : DB) (product_id : Nat) (current_user : User) :
    Except HTTPError DB :=
  match get_product db product_id with
  | none => .error ⟨404, "Product not found"⟩
  | some db_product =>
    if db_product.owner_id != current_user.id && !current_user.is_superuser then
      .error ⟨403, "Not enough permissions to delete this product"⟩
    else .ok { db with products := removeProduct db.products product_id }

/-- Modelled from the spec: `get_current_superuser` lives in app/auth.py,
which is not part of the sources under verification; per spec §4.2
(`require_superuser(user)`: fails with `Forbidden` if not superuser) and §6
(user management endpoints are superuser-only) it rejects non-superusers with
403. FastAPI evaluates this dependency before the endpoint body runs. -/
def require_superuser (u : User) : Except HTTPError Unit :=
  if u.is_superuser then .ok () else .error ⟨403, "Not enough permissions"⟩

/-- api/users.update_existing_user: `PUT /users/{id}` = superuser gate
(route dependency), then crud.update_user. -/
def update_existing_user (db : DB) (user_id : Nat) (uu : UserUpdate)
    (current_user : User) : Except HTTPError (User × DB) :=
  match require_superuser current_user with
  | .error e => .error e
  | .ok _ => update_user db user_id uu

/-- api/users.delete_existing_user: `DELETE /users/{id}` = superuser gate
(route dependency), then the self-deletion guard, then crud.delete_user. -/
def delete_existing_user (db : DB) (user_id : Nat) (current_user : User) :
    Except HTTPError DB :=
  match require_superuser current_user with
  | .error e => .error e
  | .ok _ =>
    if user_id == current_user.id then
      .error ⟨400, "Cannot delete your own account"⟩
    else delete_user db user_id

/-- A sample active product used for concrete evaluations. -/
def prodA : Product :=
  { id := 1, name := "Widget", description := none, price := 5, stock_quantity := 1,
    category := none, sku := "WIDGET-0001", is_active := true, owner_id := 1 }

/-- A sample regular (non-superuser) user; owner of `prodA`. -/
def userA : User :=
  { id := 1, email := "alice@example.com", username := "alice", hashed_password := "h1",
    full_name := none, is_active := true, is_superuser := false }

/-- A sample superuser. -/
def userS : User :=
  { id := 2, email := "root@example.com", username := "root", hashed_password := "h2",
    full_name := none, is_active := true, is_superuser := true }

/-- The empty product-update payload (no field supplied). -/
def puNone : ProductUpdate := ⟨none, none, none, none, none, none⟩

/-- A product-update payload touching name, price and category. -/
def puSample : ProductUpdate := ⟨some "Gadget", none, some 7, none, some (some "Toys"), none⟩

/-- A user-update payload touching only the full name. -/
def uuSample : UserUpdate := ⟨none, none, some (some "Alice B"), none⟩

/-- A sample store: both users and the product owned by `userA`. -/
def dbAB : DB := ⟨[userA, userS], [prodA]⟩

/-- A fresh registration payload whose email and username are not in `dbAB`. -/
def ucC9 : UserCreate := ⟨"bob@example.com", "bob", "Password1", none⟩

/-- The row `create_user (fun s => s) dbAB ucC9 9` inserts. -/
def userC9 : User :=
  { id := 9, email := "bob@example.com", username := "bob", hashed_password := "Password1",
    full_name := none, is_active := true, is_superuser := false }

/-- The store `dbAB` after that registration. -/
def dbC9 : DB := { dbAB with users := dbAB.users ++ [userC9] }

/-- Token computation of search.full_text_search:
`re.sub(r'\s+', ' ', query.lower().strip()).split()`. -/
def ftTokens (query : String) : List (List Char) :=
  wsTokensAux (collapseWsAux (stripWs (query.data.map pyLower)) false) []

/-- One token's `or_` of the four `ILIKE` conditions of
search.full_text_search (name, description, category, SKU). -/
def tokenCondition (t : List Char) (p : Product) : Bool :=
  ciSub t p.name.data || ciSubOpt t p.description ||
    ciSubOpt t p.category || ciSub t p.sku.data

/-- search.full_text_search. An empty query returns `[]`; so does an empty
token list and an empty condition list (only tokens of length ≥ 2 contribute
a condition). Otherwise the rows satisfying `and_(or_(*conds), is_active)`
are returned, truncated by `.limit(limit)` — the Python parameter defaults
to 100. -/
def full_text_search (db : List Product) (query : String) (limit : Nat) :
    List Product :=
  if query == "" then []
  else
    let tokens := ftTokens query
    if tokens.isEmpty then []
    else
      let keep := tokens.filter (fun t => 2 ≤ t.length)
      if keep.isEmpty then []
      else
        (db.filter (fun p => keep.any (fun t => tokenCondition t p) && p.is_active)).take limit

/-- The search predicate exactly as claim C2 words it: the record is active
and at least one whitespace-delimited token of the query having length ≥ 2
is a case-insensitive substring of the name, description, category or SKU. -/
def claimMatchesB (query : String) (p : Product) : Bool :=
  p.is_active &&
    (wsTokensAux query.data []).any (fun t =>
      2 ≤ t.length &&
        (ciSub t p.name.data || ciSubOpt t p.description ||
          ciSubOpt t p.category || ciSub t p.sku.data))

/-- An active product matching the query "ab"; 101 copies of it overflow the
default result limit of search.full_text_search. -/
def prodAB : Product :=
  { id := 3, name := "ab", description := none, price := 1, stock_quantity := 0,
    category := none, sku := "AB-0001", is_active := true, owner_id := 1 }

/-- Name cleaning of crud.generate_unique_sku: strip non-alphanumerics
(`re.sub(r'[^A-Za-z0-9]', '', ...)`), uppercase, truncate to 8 characters,
and substitute the literal `PROD` for an empty result. -/
def cleanBase (s : String) : String :=
  let c := String.mk (((s.data.filter Char.isAlphanum).map pyUpper).take 8)
  if c == "" then "PROD" else c

/-- Python `f"{counter:04d}"` for the counters used here. -/
def pad4 (n : Nat) : String :=
  let s := toString n
  String.mk (List.replicate (4 - s.length) '0' ++ s.data)

/-- crud.generate_unique_sku. The DB probe is abstracted into the predicate
`skuExists` (in the source, `fun sku => (get_product_by_sku db sku).isSome`);
the stream of random 8-character tokens drawn from successive `uuid.uuid4()`
calls is abstracted into `tokens`, with the liveness assumption `hlive` that
every prefix eventually meets a fresh token (spec §4.3 makes the same
assumption, and the source loops until it holds). Python truthiness:
`if base_name:` routes both `None` and `""` to the fallback arm with
`clean_name = "PROD"`. The counter loop tries 1..9999 in order, returning
the first candidate that does not exist; only on exhaustion does it fall
back to the random tokens, retried in stream order until one is unused. -/
def generate_unique_sku (skuExists : String → Bool) (base_name : Option String)
    (tokens : Nat → String)
    (hlive : ∀ c : String, ∃ n, skuExists (c ++ "-" ++ tokens n) = false) : String :=
  match base_name with
  | some s =>
    if s == "" then "PROD" ++ "-" ++ tokens (Nat.find (hlive "PROD"))
    else
      match (List.range' 1 9999).find?
          (fun k => !skuExists (cleanBase s ++ "-" ++ pad4 k)) with
      | some k => cleanBase s ++ "-" ++ pad4 k
      | none => cleanBase s ++ "-" ++ tokens (Nat.find (hlive (cleanBase s)))
  | none => "PROD" ++ "-" ++ tokens (Nat.find (hlive "PROD"))

/-- The SKU generator as claim C4 words it: any *given* base name — the
empty string included — is cleaned (empty cleans to `PROD`) and sent through
the 1..9999 counter loop; only counter exhaustion or an absent base name
reaches the random fallback. Differs from `generate_unique_sku` (the source)
only on `some ""`. -/
def generate_unique_sku_claim (skuExists : String → Bool)
    (base_name : Option String) (tokens : Nat → String)
    (hlive : ∀ c : String, ∃ n, skuExists (c ++ "-" ++ tokens n) = false) : String :=
  match base_name with
  | some s =>
    match (List.range' 1 9999).find?
        (fun k => !skuExists (cleanBase s ++ "-" ++ pad4 k)) with
    | some k => cleanBase s ++ "-" ++ pad4 k
    | none => cleanBase s ++ "-" ++ tokens (Nat.find (hlive (cleanBase s)))
  | none => "PROD" ++ "-" ++ tokens (Nat.find (hlive "PROD"))

end ProductApi

namespace ProductApi

/-- C1: code bug witness. On a store holding 101 active products and the
request `GET /products?skip=0&limit=10` with no filters, the endpoint reports
`total = 100` and `pages = 10`, although 101 records match the (empty) filter
set: the count re-query uses `get_products`' default `limit=100`, so `total`
is capped at 100 instead of the claimed filter-matching count (which would
give `total = 101`, `pages = 11`). -/
theorem read_products_total_cap :
    (read_products ⟨[], List.replicate 101 prodA⟩ 0 10 none none none none true).total = 100 ∧
    matching_count ⟨[], List.replicate 101 prodA⟩ none none none none true = 101 ∧
    (read_products ⟨[], List.replicate 101 prodA⟩ 0 10 none none none none true).pages = 10 := by
  refine ⟨?_, ?_, ?_⟩ <;> rfl

/-- C10: passing `category=""` (or `search=""`) to the product listing is
identical to omitting the filter: Python truthiness makes `if category:` skip
the filter for the empty string, both in the page query and in the count
query, so the empty string does not restrict the result to products whose
category is empty. -/
theorem empty_string_filters_ignored (db : DB) (skip limit : Nat)
    (category search : Option String) (min_price max_price : Option Int)
    (active_only : Bool) :
    read_products db skip limit (some "") search min_price max_price active_only =
      read_products db skip limit none search min_price max_price active_only ∧
    read_products db skip limit category (some "") min_price max_price active_only =
      read_products db skip limit category none min_price max_price active_only ∧
    get_products db skip limit (some "") search min_price max_price active_only =
      get_products db skip limit none search min_price max_price active_only ∧
    get_products db skip limit category (some "") min_price max_price active_only =
      get_products db skip limit category none min_price max_price active_only := by
  refine ⟨rfl, ?_, rfl, ?_⟩ <;> cases category <;> rfl

/-- C3: a product update or deletion on an existing product succeeds exactly
when the acting user is the product's owner or a superuser; otherwise it
fails with 403 Forbidden (and, the error carrying no store, the product is
unchanged). -/
theorem can_modify_product_iff (db : DB) (pid : Nat) (pu : ProductUpdate)
    (u : User) (p : Product) (hp : get_product db pid = some p) :
    ((∃ r, update_product db pid pu u = .ok r) ↔
      (u.id = p.owner_id ∨ u.is_superuser = true)) ∧
    ((∃ db', delete_product db pid u = .ok db') ↔
      (u.id = p.owner_id ∨ u.is_superuser = true)) ∧
    (¬(u.id = p.owner_id ∨ u.is_superuser = true) →
      update_product db pid pu u =
        .error ⟨403, "Not enough permissions to update this product"⟩ ∧
      delete_product db pid u =
        .error ⟨403, "Not enough permissions to delete this product"⟩) := by
  unfold update_product delete_product
  rw [hp]
  by_cases h1 : u.id = p.owner_id <;> by_cases h2 : u.is_superuser = true
  · simp [h1, h2]
  · simp [h1, h2]
  · simp [h1, h2]
  · simp [h1, h2, Ne.symm h1]

/-- Witness for C3 at a concrete store: `userA` owns `prodA` in `dbAB`. -/
theorem can_modify_product_iff_w :
    ((∃ r, update_product dbAB 1 puNone userA = .ok r) ↔
      (userA.id = prodA.owner_id ∨ userA.is_superuser = true)) ∧
    ((∃ db', delete_product dbAB 1 userA = .ok db') ↔
      (userA.id = prodA.owner_id ∨ userA.is_superuser = true)) ∧
    (¬(userA.id = prodA.owner_id ∨ userA.is_superuser = true) →
      update_product dbAB 1 puNone userA =
        .error ⟨403, "Not enough permissions to update this product"⟩ ∧
      delete_product dbAB 1 userA =
        .error ⟨403, "Not enough permissions to delete this product"⟩) :=
  can_modify_product_iff dbAB 1 puNone userA prodA rfl

/-- C5: an authorized product update never changes the stored SKU (the update
schema carries no SKU field, and crud additionally strips a `"sku"` key), and
it maps every other field to the supplied value when supplied and to the
prior value otherwise (`Option.getD`); id and owner are likewise untouched. -/
theorem update_product_frame (db : DB) (pid : Nat) (pu : ProductUpdate)
    (u : User) (p : Product) (hp : get_product db pid = some p)
    (hperm : u.id = p.owner_id ∨ u.is_superuser = true) :
    ∃ p' db', update_product db pid pu u = .ok (p', db') ∧
      p'.sku = p.sku ∧ p'.id = p.id ∧ p'.owner_id = p.owner_id ∧
      p'.name = pu.name.getD p.name ∧
      p'.description = pu.description.getD p.description ∧
      p'.price = pu.price.getD p.price ∧
      p'.stock_quantity = pu.stock_quantity.getD p.stock_quantity ∧
      p'.category = pu.category.getD p.category ∧
      p'.is_active = pu.is_active.getD p.is_active ∧
      db'.users = db.users ∧ db'.products = setProduct db.products pid p' := by
  have hcond : (p.owner_id != u.id && !u.is_superuser) = false := by
    rcases hperm with h | h <;> simp [h]
  refine ⟨applyProductUpdate p pu,
    { db with products := setProduct db.products pid (applyProductUpdate p pu) },
    ?_, rfl, rfl, rfl, rfl, rfl, rfl, rfl, rfl, rfl, rfl, rfl⟩
  unfold update_product
  rw [hp]
  simp [hcond]

/-- Witness for C5: `userA` updates its own `prodA` with `puSample`. -/
theorem update_product_frame_w :
    ∃ p' db', update_product dbAB 1 puSample userA = .ok (p', db') ∧
      p'.sku = prodA.sku ∧ p'.id = prodA.id ∧ p'.owner_id = prodA.owner_id ∧
      p'.name = puSample.name.getD prodA.name ∧
      p'.description = puSample.description.getD prodA.description ∧
      p'.price = puSample.price.getD prodA.price ∧
      p'.stock_quantity = puSample.stock_quantity.getD prodA.stock_quantity ∧
      p'.category = puSample.category.getD prodA.category ∧
      p'.is_active = puSample.is_active.getD prodA.is_active ∧
      db'.users = dbAB.users ∧ db'.products = setProduct dbAB.products 1 p' :=
  update_product_frame dbAB 1 puSample userA prodA rfl (Or.inl rfl)

/-- C6: registration fails with "Email already registered" whenever some
stored user already holds the email (even if the username is also taken,
since the email check runs first), and — the email being free — with
"Username already taken" whenever some stored user holds the username; the
`.error` results carry no store, so nothing is inserted in either case. -/
theorem create_user_duplicate_checks (hashF : String → String) (db : DB)
    (uc : UserCreate) (newId : Nat) :
    ((∃ x ∈ db.users, x.email = uc.email) →
      create_user hashF db uc newId = .error ⟨400, "Email already registered"⟩) ∧
    ((¬ ∃ x ∈ db.users, x.email = uc.email) →
      (∃ x ∈ db.users, x.username = uc.username) →
      create_user hashF db uc newId = .error ⟨400, "Username already taken"⟩) := by
  constructor
  · intro h
    have hs : (get_user_by_email db uc.email).isSome = true := by
      rw [get_user_by_email, List.find?_isSome]
      obtain ⟨x, hx, he⟩ := h
      exact ⟨x, hx, by simp [he]⟩
    unfold create_user
    simp [hs]
  · intro hne h
    have hs : (get_user_by_email db uc.email).isSome = false := by
      rw [get_user_by_email]
      rcases ho : db.users.find? (fun u => u.email == uc.email) with _ | x
      · simp [ho]
      · exact absurd ⟨x, List.mem_of_find?_eq_some ho,
          by simpa using List.find?_some ho⟩ hne
    have hs2 : (get_user_by_username db uc.username).isSome = true := by
      rw [get_user_by_username, List.find?_isSome]
      obtain ⟨x, hx, hu⟩ := h
      exact ⟨x, hx, by simp [hu]⟩
    unfold create_user
    simp [hs, hs2]

/-- Witness for C6 on `dbAB`: re-registering `alice@example.com` under a fresh
username hits the email check; registering a fresh email under `alice` hits
the username check. -/
theorem create_user_duplicate_checks_w :
    create_user (fun s => s) dbAB ⟨"alice@example.com", "zed", "Password1", none⟩ 9 =
      .error ⟨400, "Email already registered"⟩ ∧
    create_user (fun s => s) dbAB ⟨"zed@example.com", "alice", "Password1", none⟩ 9 =
      .error ⟨400, "Username already taken"⟩ :=
  ⟨(create_user_duplicate_checks (fun s => s) dbAB
      ⟨"alice@example.com", "zed", "Password1", none⟩ 9).1 (by decide),
   (create_user_duplicate_checks (fun s => s) dbAB
      ⟨"zed@example.com", "alice", "Password1", none⟩ 9).2 (by decide) (by decide)⟩

/-- C7: for a superuser acting on `DELETE /users/{id}`, targeting the acting
user's own id fails with 400 "Cannot delete your own account" (the error
carries no store: nothing is deleted), while targeting any other id that
exists succeeds and removes exactly that row. -/
theorem delete_user_self_guard (db : DB) (cu : User)
    (hsu : cu.is_superuser = true) (uid : Nat) :
    (uid = cu.id →
      delete_existing_user db uid cu = .error ⟨400, "Cannot delete your own account"⟩) ∧
    (uid ≠ cu.id → ∀ t, get_user db uid = some t →
      delete_existing_user db uid cu = .ok { db with users := removeUser db.users uid }) := by
  unfold delete_existing_user require_superuser
  constructor
  · intro h
    simp [hsu, h]
  · intro h t ht
    unfold delete_user
    rw [ht]
    simp [hsu, h]

/-- Witness for C7 on `dbAB`: the superuser `userS` (id 2) cannot delete
itself but deletes the existing `userA` (id 1). -/
theorem delete_user_self_guard_w :
    delete_existing_user dbAB 2 userS = .error ⟨400, "Cannot delete your own account"⟩ ∧
    delete_existing_user dbAB 1 userS = .ok { dbAB with users := removeUser dbAB.users 1 } :=
  ⟨(delete_user_self_guard dbAB userS rfl 2).1 rfl,
   (delete_user_self_guard dbAB userS rfl 1).2 (by decide) userA rfl⟩

/-- C8 counterexample: a non-superuser (`userA`) issuing
`DELETE /users/99` against a store where user 99 does not exist observes
403 (the route-level superuser gate fires before any existence check), not
the 404 the claim promises for every mutation endpoint. -/
theorem delete_missing_user_forbidden_cex :
    delete_existing_user dbAB 99 userA = .error ⟨403, "Not enough permissions"⟩ ∧
    get_user dbAB 99 = none ∧
    (⟨403, "Not enough permissions"⟩ : HTTPError) ≠ ⟨404, "User not found"⟩ :=
  ⟨rfl, rfl, by decide⟩

/-- C8 amended: for the product endpoints a missing target yields 404 before
the ownership/superuser authorization check, for every acting user; for the
user endpoints the route-level superuser requirement is evaluated first, so
on a missing target a superuser observes 404 (for deletion provided the
target id is not their own) while a non-superuser observes 403. -/
theorem missing_target_status (db : DB) (pid : Nat) (pu : ProductUpdate)
    (cu : User) (hmiss : get_product db pid = none) :
    update_product db pid pu cu = .error ⟨404, "Product not found"⟩ ∧
    delete_product db pid cu = .error ⟨404, "Product not found"⟩ ∧
    (∀ uid uu, get_user db uid = none →
      (cu.is_superuser = true → uid ≠ cu.id →
        update_existing_user db uid uu cu = .error ⟨404, "User not found"⟩ ∧
        delete_existing_user db uid cu = .error ⟨404, "User not found"⟩) ∧
      (cu.is_superuser = false →
        update_existing_user db uid uu cu = .error ⟨403, "Not enough permissions"⟩ ∧
        delete_existing_user db uid cu = .error ⟨403, "Not enough permissions"⟩)) := by
  refine ⟨?_, ?_, ?_⟩
  · unfold update_product; rw [hmiss]
  · unfold delete_product; rw [hmiss]
  · intro uid uu humiss
    constructor
    · intro hsu hne
      unfold update_existing_user delete_existing_user require_superuser
        update_user delete_user
      rw [humiss]
      simp [hsu, hne]
    · intro hsu
      unfold update_existing_user delete_existing_user require_superuser
      simp [hsu]

/-- Witness for C8 (amended) on `dbAB`: product 99 and user 99 are absent;
`userS` is a superuser with id 2 ≠ 99, `userA` is not a superuser. -/
theorem missing_target_status_w :
    update_product dbAB 99 puNone userS = .error ⟨404, "Product not found"⟩ ∧
    delete_product dbAB 99 userS = .error ⟨404, "Product not found"⟩ ∧
    (update_existing_user dbAB 99 uuSample userS = .error ⟨404, "User not found"⟩ ∧
      delete_existing_user dbAB 99 userS = .error ⟨404, "User not found"⟩) ∧
    (update_existing_user dbAB 99 uuSample userA = .error ⟨403, "Not enough permissions"⟩ ∧
      delete_existing_user dbAB 99 userA = .error ⟨403, "Not enough permissions"⟩) :=
  ⟨(missing_target_status dbAB 99 puNone userS rfl).1,
   (missing_target_status dbAB 99 puNone userS rfl).2.1,
   ((missing_target_status dbAB 99 puNone userS rfl).2.2 99 uuSample rfl).1 rfl (by decide),
   ((missing_target_status dbAB 99 puNone userA rfl).2.2 99 uuSample rfl).2 rfl⟩

/-- Replacing the row `find?` located by a row with the same id and the same
superuser flag leaves the (id, is_superuser) view of the table unchanged. -/
theorem setUser_map_pres (l : List User) (uid : Nat) (t u' : User)
    (hf : l.find? (fun x => x.id == uid) = some t)
    (hid : u'.id = t.id) (hsu : u'.is_superuser = t.is_superuser) :
    (setUser l uid u').map (fun x => (x.id, x.is_superuser)) =
      l.map (fun x => (x.id, x.is_superuser)) := by
  induction l with
  | nil => simp at hf
  | cons a rest ih =>
    by_cases h : (a.id == uid) = true
    · have hfa : (a :: rest).find? (fun x => x.id == uid) = some a :=
        List.find?_cons_of_pos rest h
      rw [hfa] at hf
      injection hf with hf
      subst hf
      unfold setUser
      rw [if_pos h]
      simp [hid, hsu]
    · have hfa : (a :: rest).find? (fun x => x.id == uid) =
          rest.find? (fun x => x.id == uid) :=
        List.find?_cons_of_neg rest (by simpa using h)
      rw [hfa] at hf
      unfold setUser
      rw [if_neg h]
      simp [ih hf]

/-- C9: a user created through registration always carries
`is_superuser = false` (the constructor takes the column default), and a user
update — whose payload schema has no superuser field — leaves the
`(id, is_superuser)` view of the whole user table unchanged, so no exposed
mutation can ever set the flag. -/
theorem is_superuser_invariant (hashF : String → String) (db : DB)
    (uc : UserCreate) (newId : Nat) :
    (∀ u' db', create_user hashF db uc newId = .ok (u', db') →
      u'.is_superuser = false) ∧
    (∀ uid uu u' db', update_user db uid uu = .ok (u', db') →
      db'.users.map (fun x => (x.id, x.is_superuser)) =
        db.users.map (fun x => (x.id, x.is_superuser))) := by
  constructor
  · intro u' db' h
    unfold create_user at h
    by_cases h1 : (get_user_by_email db uc.email).isSome
    · simp [h1] at h
    · by_cases h2 : (get_user_by_username db uc.username).isSome
      · simp [h1, h2] at h
      · simp [h1, h2] at h
        rw [← h.1]
  · intro uid uu u' db' h
    unfold update_user at h
    rcases hg : get_user db uid with _ | t
    · rw [hg] at h
      exact absurd h (by simp)
    · rw [hg] at h
      dsimp only at h
      split at h
      · exact absurd h (by simp)
      · split at h
        · exact absurd h (by simp)
        · rw [Except.ok.injEq, Prod.mk.injEq] at h
          rw [← h.2]
          exact setUser_map_pres db.users uid t (applyUserUpdate t uu) hg rfl rfl

/-- Witness for C9: registering `ucC9` on `dbAB` yields `userC9` with the
flag down, and updating `userA`'s full name leaves the flag view of the
table unchanged. -/
theorem is_superuser_invariant_w :
    userC9.is_superuser = false ∧
    (DB.mk (setUser dbAB.users 1 (applyUserUpdate userA uuSample)) dbAB.products).users.map
        (fun x => (x.id, x.is_superuser)) =
      dbAB.users.map (fun x => (x.id, x.is_superuser)) :=
  ⟨(is_superuser_invariant (fun s => s) dbAB ucC9 9).1 userC9 dbC9 rfl,
   (is_superuser_invariant (fun s => s) dbAB ucC9 9).2 1 uuSample
     (applyUserUpdate userA uuSample)
     { dbAB with users := setUser dbAB.users 1 (applyUserUpdate userA uuSample) } rfl⟩

/-- Lowercasing never turns a character into whitespace or vice versa. -/
theorem pyLower_isWhitespace (c : Char) :
    (pyLower c).isWhitespace = c.isWhitespace := by
  unfold pyLower
  split <;> rfl

/-- Either `pyLower` leaves a character unchanged, or it produced one of the
26 lowercase letters. -/
theorem pyLower_mem_or (c : Char) :
    pyLower c = c ∨ pyLower c ∈
      ['a','b','c','d','e','f','g','h','i','j','k','l','m',
       'n','o','p','q','r','s','t','u','v','w','x','y','z'] := by
  unfold pyLower
  split <;> first | (left; rfl) | (right; decide)

/-- Lowercase letters are fixed points of `pyLower`. -/
theorem pyLower_lower_fix (d : Char)
    (hd : d ∈ ['a','b','c','d','e','f','g','h','i','j','k','l','m',
      'n','o','p','q','r','s','t','u','v','w','x','y','z']) : pyLower d = d := by
  fin_cases hd <;> rfl

/-- Python lowercasing is idempotent. -/
theorem pyLower_pyLower (c : Char) : pyLower (pyLower c) = pyLower c := by
  rcases pyLower_mem_or c with h | h
  · rw [h]; exact h
  · exact pyLower_lower_fix _ h

/-- Re-lowercasing an already lowercased token is a no-op. -/
theorem map_pyLower_idem (t : List Char) :
    (t.map pyLower).map pyLower = t.map pyLower := by
  rw [List.map_map]
  exact List.map_congr_left (fun c _ => pyLower_pyLower c)

/-- Equation lemma: the tokenizer on the empty input flushes the accumulator. -/
theorem wsTokensAux_nil (acc : List Char) :
    wsTokensAux [] acc = if acc.isEmpty then [] else [acc.reverse] := by
  conv_lhs => rw [wsTokensAux]

/-- Equation lemma: the tokenizer consuming a whitespace character. -/
theorem wsTokensAux_ws (c : Char) (rest acc : List Char)
    (h : c.isWhitespace = true) :
    wsTokensAux (c :: rest) acc =
      if acc.isEmpty then wsTokensAux rest []
      else acc.reverse :: wsTokensAux rest [] := by
  conv_lhs => rw [wsTokensAux]
  rw [if_pos h]

/-- Equation lemma: the tokenizer consuming a non-whitespace character. -/
theorem wsTokensAux_not_ws (c : Char) (rest acc : List Char)
    (h : c.isWhitespace = false) :
    wsTokensAux (c :: rest) acc = wsTokensAux rest (c :: acc) := by
  conv_lhs => rw [wsTokensAux]
  rw [if_neg (by simp [h])]

/-- Tokenizing an all-whitespace tail only flushes the accumulator. -/
theorem wsTokensAux_all_ws (l : List Char)
    (hl : ∀ c ∈ l, c.isWhitespace = true) (acc : List Char) :
    wsTokensAux l acc = if acc.isEmpty then [] else [acc.reverse] := by
  induction l generalizing acc with
  | nil => rfl
  | cons c rest ih =>
    rw [wsTokensAux_ws c rest acc (hl c (by simp))]
    have hrest : wsTokensAux rest [] = [] := by
      rw [ih (fun d hd => hl d (by simp [hd])) []]
      rfl
    by_cases h : acc.isEmpty <;> simp [h, hrest]

/-- Trailing whitespace does not change the token list. -/
theorem wsTokensAux_append_ws (l sp : List Char)
    (hsp : ∀ c ∈ sp, c.isWhitespace = true) (acc : List Char) :
    wsTokensAux (l ++ sp) acc = wsTokensAux l acc := by
  induction l generalizing acc with
  | nil =>
    rw [List.nil_append, wsTokensAux_all_ws sp hsp acc]
    rfl
  | cons c rest ih =>
    by_cases h : c.isWhitespace = true
    · rw [List.cons_append, wsTokensAux_ws c _ acc h, wsTokensAux_ws c rest acc h]
      simp [ih]
    · have h' : c.isWhitespace = false := by simpa using h
      rw [List.cons_append, wsTokensAux_not_ws c _ acc h',
        wsTokensAux_not_ws c rest acc h']
      exact ih (c :: acc)

/-- Leading whitespace does not change the token list. -/
theorem wsTokensAux_dropWhile (l : List Char) :
    wsTokensAux (l.dropWhile Char.isWhitespace) [] = wsTokensAux l [] := by
  induction l with
  | nil => rfl
  | cons c rest ih =>
    rw [List.dropWhile_cons]
    by_cases h : c.isWhitespace = true
    · rw [if_pos h, ih, wsTokensAux_ws c rest [] h]
      rfl
    · rw [if_neg h]

/-- Python `strip()` does not change the token list. -/
theorem wsTokensAux_stripWs (l : List Char) :
    wsTokensAux (stripWs l) [] = wsTokensAux l [] := by
  unfold stripWs
  have hsplit : ((l.dropWhile Char.isWhitespace).reverse.dropWhile
        Char.isWhitespace).reverse ++
      ((l.dropWhile Char.isWhitespace).reverse.takeWhile
        Char.isWhitespace).reverse = l.dropWhile Char.isWhitespace := by
    rw [← List.reverse_append, List.takeWhile_append_dropWhile, List.reverse_reverse]
  calc wsTokensAux ((l.dropWhile Char.isWhitespace).reverse.dropWhile
        Char.isWhitespace).reverse []
      = wsTokensAux (((l.dropWhile Char.isWhitespace).reverse.dropWhile
          Char.isWhitespace).reverse ++
        ((l.dropWhile Char.isWhitespace).reverse.takeWhile
          Char.isWhitespace).reverse) [] := by
        rw [wsTokensAux_append_ws _ _
          (fun c hc => List.mem_takeWhile_imp (List.mem_reverse.mp hc)) []]
    _ = wsTokensAux (l.dropWhile Char.isWhitespace) [] := by rw [hsplit]
    _ = wsTokensAux l [] := wsTokensAux_dropWhile l

/-- Collapsing whitespace runs does not change the token list. -/
theorem wsTokensAux_collapse (l : List Char) :
    (∀ acc, wsTokensAux (collapseWsAux l false) acc = wsTokensAux l acc) ∧
      wsTokensAux (collapseWsAux l true) [] = wsTokensAux l [] := by
  induction l with
  | nil => exact ⟨fun acc => rfl, rfl⟩
  | cons c rest ih =>
    by_cases h : c.isWhitespace = true
    · constructor
      · intro acc
        rw [show collapseWsAux (c :: rest) false = ' ' :: collapseWsAux rest true from by
          conv_lhs => rw [collapseWsAux]
          rw [if_pos h]
          rfl]
        rw [wsTokensAux_ws ' ' _ acc rfl, wsTokensAux_ws c rest acc h, ih.2]
      · rw [show collapseWsAux (c :: rest) true = collapseWsAux rest true from by
          conv_lhs => rw [collapseWsAux]
          rw [if_pos h]
          rfl]
        rw [ih.2, wsTokensAux_ws c rest [] h]
        rfl
    · have h' : c.isWhitespace = false := by simpa using h
      constructor
      · intro acc
        rw [show collapseWsAux (c :: rest) false = c :: collapseWsAux rest false from by
          conv_lhs => rw [collapseWsAux]
          rw [if_neg h]]
        rw [wsTokensAux_not_ws c _ acc h', wsTokensAux_not_ws c rest acc h']
        exact ih.1 (c :: acc)
      · rw [show collapseWsAux (c :: rest) true = c :: collapseWsAux rest false from by
          conv_lhs => rw [collapseWsAux]
          rw [if_neg h]]
        rw [wsTokensAux_not_ws c _ [] h', wsTokensAux_not_ws c rest [] h']
        exact ih.1 [c]

/-- Lowercasing commutes with tokenization (whitespace is `pyLower`-invariant). -/
theorem wsTokensAux_map_pyLower (l : List Char) : ∀ acc : List Char,
    wsTokensAux (l.map pyLower) (acc.map pyLower) =
      (wsTokensAux l acc).map (List.map pyLower) := by
  induction l with
  | nil =>
    intro acc
    rw [List.map_nil, wsTokensAux_nil, wsTokensAux_nil]
    by_cases h : acc.isEmpty = true
    · rw [List.isEmpty_iff.mp h]
      rfl
    · have h2 : (acc.map pyLower).isEmpty = false := by
        rcases acc with _ | ⟨a, as⟩
        · simp at h
        · rfl
      rw [h2, eq_false_of_ne_true h]
      simp [List.map_reverse]
  | cons c rest ih =>
    intro acc
    by_cases h : c.isWhitespace = true
    · have h' : (pyLower c).isWhitespace = true := by
        rw [pyLower_isWhitespace]; exact h
      rw [List.map_cons, wsTokensAux_ws _ _ _ h', wsTokensAux_ws c rest acc h]
      have h0 : wsTokensAux (rest.map pyLower) [] =
          (wsTokensAux rest []).map (List.map pyLower) := ih []
      by_cases ha : acc.isEmpty = true
      · rw [List.isEmpty_iff.mp ha]
        simpa using h0
      · have h2 : (acc.map pyLower).isEmpty = false := by
          rcases acc with _ | ⟨a, as⟩
          · simp at ha
          · rfl
        rw [h2, eq_false_of_ne_true ha]
        simp [h0, List.map_reverse]
    · have h' : (pyLower c).isWhitespace = false := by
        rw [pyLower_isWhitespace]; simpa using h
      rw [List.map_cons, wsTokensAux_not_ws _ _ _ h',
        wsTokensAux_not_ws c rest acc (by simpa using h)]
      exact ih (c :: acc)

/-- The tokens search.full_text_search works on are exactly the
whitespace-delimited tokens of the raw query, lowercased. -/
theorem ftTokens_eq (query : String) :
    ftTokens query = (wsTokensAux query.data []).map (List.map pyLower) := by
  unfold ftTokens
  rw [(wsTokensAux_collapse _).1, wsTokensAux_stripWs]
  simpa using wsTokensAux_map_pyLower query.data []

/-- Pre-lowercasing the pattern does not change a case-insensitive match. -/
theorem ciSub_map_pyLower (t f : List Char) :
    ciSub (t.map pyLower) f = ciSub t f := by
  unfold ciSub
  rw [map_pyLower_idem]

/-- Same, against a nullable column. -/
theorem ciSubOpt_map_pyLower (t : List Char) (o : Option String) :
    ciSubOpt (t.map pyLower) o = ciSubOpt t o := by
  cases o with
  | none => rfl
  | some s => exact ciSub_map_pyLower t s.data

/-- Pre-lowercasing a token does not change its four-field condition. -/
theorem tokenCondition_map_pyLower (t : List Char) (p : Product) :
    tokenCondition (t.map pyLower) p = tokenCondition t p := by
  unfold tokenCondition
  rw [ciSub_map_pyLower, ciSub_map_pyLower, ciSubOpt_map_pyLower,
    ciSubOpt_map_pyLower]

/-- Filtering then testing `any` equals testing `any` of the conjunction. -/
theorem filter_any_eq {α : Type} (l : List α) (p q : α → Bool) :
    (l.filter p).any q = l.any (fun a => p a && q a) := by
  induction l with
  | nil => rfl
  | cons a rest ih =>
    by_cases h : p a = true <;> simp [h, ih]

/-- C2 amended: full-text search returns the first `limit` (the Python
default being 100) active stored products, in store order, for which at
least one whitespace-delimited query token of length ≥ 2 is a
case-insensitive substring of the name, description, category or SKU —
and exactly the set of such products whenever at most `limit` of them
match. An empty query, or one all of whose tokens are shorter than two
characters, yields the empty result rather than an error (the all-false
predicate makes the filter empty in those cases). -/
theorem full_text_search_spec (db : List Product) (query : String) (limit : Nat) :
    full_text_search db query limit =
      (db.filter (fun p => claimMatchesB query p)).take limit ∧
    ((db.filter (fun p => claimMatchesB query p)).length ≤ limit →
      full_text_search db query limit = db.filter (fun p => claimMatchesB query p)) := by
  have hpt : ∀ p : Product,
      (((ftTokens query).filter (fun t => 2 ≤ t.length)).any
          (fun t => tokenCondition t p) && p.is_active)
        = claimMatchesB query p := by
    intro p
    rw [ftTokens_eq, List.filter_map, List.any_map]
    simp only [Function.comp_def, List.length_map, tokenCondition_map_pyLower]
    rw [filter_any_eq]
    unfold claimMatchesB tokenCondition
    exact Bool.and_comm _ _
  have hcode : full_text_search db query limit =
      if (query == "") = true then [] else
      if (ftTokens query).isEmpty = true then [] else
      if ((ftTokens query).filter (fun t => 2 ≤ t.length)).isEmpty = true then [] else
        (db.filter (fun p =>
          ((ftTokens query).filter (fun t => 2 ≤ t.length)).any
            (fun t => tokenCondition t p) && p.is_active)).take limit := rfl
  have hmain : full_text_search db query limit =
      (db.filter (fun p => claimMatchesB query p)).take limit := by
    rw [hcode]
    by_cases hq : (query == "") = true
    · rw [if_pos hq]
      have hq' : query = "" := by simpa using hq
      subst hq'
      have hcl : ∀ p : Product, claimMatchesB "" p = false := fun p => by
        rw [← hpt p]; rfl
      rw [show db.filter (fun p => claimMatchesB "" p) = [] from
        List.filter_eq_nil_iff.mpr (fun p _ => by simp [hcl p]), List.take_nil]
    · rw [if_neg hq]
      by_cases hk : (((ftTokens query).filter (fun t => 2 ≤ t.length)).isEmpty) = true
      · have hkeep : (ftTokens query).filter (fun t => 2 ≤ t.length) = [] :=
          List.isEmpty_iff.mp hk
        have hcl : ∀ p : Product, claimMatchesB query p = false := fun p => by
          rw [← hpt p, hkeep]; rfl
        rw [show db.filter (fun p => claimMatchesB query p) = [] from
          List.filter_eq_nil_iff.mpr (fun p _ => by simp [hcl p]), List.take_nil]
        by_cases ht : (ftTokens query).isEmpty = true
        · rw [if_pos ht]
        · rw [if_neg ht, if_pos hk]
      · have ht : (ftTokens query).isEmpty = false := by
          rcases h0 : ftTokens query with _ | ⟨t, ts⟩
          · rw [h0] at hk; simp at hk
          · rfl
        rw [if_neg (by simp [ht]), if_neg hk,
          List.filter_congr (fun p _ => hpt p)]
  exact ⟨hmain, fun hlen => by rw [hmain, List.take_of_length_le hlen]⟩

/-- Witness for C2 (amended) at concrete data: one stored product matching
the query "ab" is below the limit, so the search returns exactly the claim's
matching set. -/
theorem full_text_search_spec_w :
    full_text_search [prodAB] "ab" 100 =
      [prodAB].filter (fun p => claimMatchesB "ab" p) :=
  (full_text_search_spec [prodAB] "ab" 100).2 (by decide)

/-- C2 counterexample: with 101 stored active products all matching the
query "ab", the search returns only the first 100 (its `.limit(limit)`
truncation, the Python default being 100), so it does not return exactly
the set of active matching products as the claim states. -/
theorem full_text_search_cex :
    full_text_search (List.replicate 101 prodAB) "ab" 100 ≠
      (List.replicate 101 prodAB).filter (fun p => claimMatchesB "ab" p) ∧
    (full_text_search (List.replicate 101 prodAB) "ab" 100).length = 100 ∧
    ((List.replicate 101 prodAB).filter (fun p => claimMatchesB "ab" p)).length = 101 := by
  have h1 : (full_text_search (List.replicate 101 prodAB) "ab" 100).length = 100 := by rfl
  have h2 : ((List.replicate 101 prodAB).filter
      (fun p => claimMatchesB "ab" p)).length = 101 := by rfl
  refine ⟨fun h => ?_, h1, h2⟩
  rw [h, h2] at h1
  exact absurd h1 (by decide)

/-- What `find?` over `range' s n` returns: the least element of the range
satisfying the predicate. -/
theorem find?_range'_min (p : Nat → Bool) (n : Nat) : ∀ (s k : Nat),
    (List.range' s n).find? p = some k →
    p k = true ∧ s ≤ k ∧ k < s + n ∧ ∀ j, s ≤ j → j < k → p j = false := by
  induction n with
  | zero => intro s k h; simp at h
  | succ n ih =>
    intro s k h
    rw [show List.range' s (n+1) = s :: List.range' (s+1) n from rfl] at h
    by_cases hp : p s = true
    · have h2 : (s :: List.range' (s+1) n).find? p = some s :=
        List.find?_cons_of_pos _ hp
      rw [h2] at h
      injection h with h
      subst h
      exact ⟨hp, Nat.le_refl s, by omega,
        fun j hj1 hj2 => absurd (Nat.lt_of_le_of_lt hj1 hj2) (Nat.lt_irrefl s)⟩
    · have hps : p s = false := by simpa using hp
      have h2 : (s :: List.range' (s+1) n).find? p = (List.range' (s+1) n).find? p :=
        List.find?_cons_of_neg _ (by simp [hps])
      rw [h2] at h
      obtain ⟨hk1, hk2, hk3, hk4⟩ := ih (s+1) k h
      refine ⟨hk1, by omega, by omega, fun j hj1 hj2 => ?_⟩
      rcases Nat.eq_or_lt_of_le hj1 with heq | hj
      · rw [← heq]; exact hps
      · exact hk4 j hj hj2

/-- If some element of the range satisfies the predicate, `find?` succeeds. -/
theorem find?_range'_isSome (p : Nat → Bool) (s n k : Nat)
    (hk1 : s ≤ k) (hk2 : k < s + n) (hp : p k = true) :
    ∃ k0, (List.range' s n).find? p = some k0 := by
  rcases h : (List.range' s n).find? p with _ | k0
  · exact absurd hp (List.find?_eq_none.mp h k (by rw [List.mem_range'_1]; omega))
  · exact ⟨k0, rfl⟩

/-- C4 counterexample: with no existing SKUs, base name `""` (given but
empty) and a random-token stream, the claim mandates cleaning `""` to
`PROD` and returning the first free counter SKU `PROD-0001`, but Python
truthiness (`if base_name:`) sends the empty base name straight to the
random fallback: the code returns `PROD-` followed by the first random
token instead. -/
theorem generate_unique_sku_cex :
    generate_unique_sku (fun _ => false) (some "") (fun _ => "4A9G71BQ")
        (fun _ => ⟨0, rfl⟩) = "PROD-4A9G71BQ" ∧
    generate_unique_sku_claim (fun _ => false) (some "") (fun _ => "4A9G71BQ")
        (fun _ => ⟨0, rfl⟩) = "PROD-0001" ∧
    ("PROD-4A9G71BQ" : String) ≠ "PROD-0001" :=
  ⟨rfl, rfl, by decide⟩

/-- C4 amended: the returned SKU never exists under the predicate; for a
*non-empty* base name, whenever some counter in 1..9999 yields a free
candidate, the generator returns `{clean}-{counter:04d}` for the least such
counter (every smaller counter's candidate already existing); for a
non-empty base name with all 9999 counters taken it falls back to
`{clean}-{token}` for the first fresh token of the stream; and an *absent or
empty* base name goes directly to the fallback with clean = `PROD` (the
empty string, being falsy, is not cleaned first — this is the one deviation
from the claim as stated). -/
theorem generate_unique_sku_spec (skuExists : String → Bool)
    (base_name : Option String) (tokens : Nat → String)
    (hlive : ∀ c : String, ∃ n, skuExists (c ++ "-" ++ tokens n) = false) :
    skuExists (generate_unique_sku skuExists base_name tokens hlive) = false ∧
    (∀ s, base_name = some s → s ≠ "" →
      ∀ k, 1 ≤ k → k ≤ 9999 → skuExists (cleanBase s ++ "-" ++ pad4 k) = false →
        ∃ k0, 1 ≤ k0 ∧ k0 ≤ k ∧
          skuExists (cleanBase s ++ "-" ++ pad4 k0) = false ∧
          (∀ j, 1 ≤ j → j < k0 → skuExists (cleanBase s ++ "-" ++ pad4 j) = true) ∧
          generate_unique_sku skuExists base_name tokens hlive =
            cleanBase s ++ "-" ++ pad4 k0) ∧
    (∀ s, base_name = some s → s ≠ "" →
      (∀ k, 1 ≤ k → k ≤ 9999 → skuExists (cleanBase s ++ "-" ++ pad4 k) = true) →
      ∃ n, generate_unique_sku skuExists base_name tokens hlive =
          cleanBase s ++ "-" ++ tokens n ∧
        skuExists (cleanBase s ++ "-" ++ tokens n) = false ∧
        ∀ m, m < n → skuExists (cleanBase s ++ "-" ++ tokens m) = true) ∧
    ((base_name = none ∨ base_name = some "") →
      ∃ n, generate_unique_sku skuExists base_name tokens hlive =
          "PROD" ++ "-" ++ tokens n ∧
        skuExists ("PROD" ++ "-" ++ tokens n) = false ∧
        ∀ m, m < n → skuExists ("PROD" ++ "-" ++ tokens m) = true) := by
  have hfind : ∀ c : String, skuExists (c ++ "-" ++ tokens (Nat.find (hlive c))) = false ∧
      ∀ m, m < Nat.find (hlive c) → skuExists (c ++ "-" ++ tokens m) = true := by
    intro c
    refine ⟨Nat.find_spec (hlive c), fun m hm => ?_⟩
    have := Nat.find_min (hlive c) hm
    simpa using this
  rcases base_name with _ | s
  · refine ⟨(hfind "PROD").1, fun s h => absurd h (by simp),
      fun s h => absurd h (by simp), fun _ => ?_⟩
    exact ⟨Nat.find (hlive "PROD"), rfl, (hfind "PROD").1, (hfind "PROD").2⟩
  · by_cases hs : s = ""
    · subst hs
      have hg : generate_unique_sku skuExists (some "") tokens hlive =
          "PROD" ++ "-" ++ tokens (Nat.find (hlive "PROD")) := rfl
      refine ⟨?_, fun s' hs' hne => absurd (Option.some.inj hs').symm hne,
        fun s' hs' hne => absurd (Option.some.inj hs').symm hne, fun _ => ?_⟩
      · rw [hg]; exact (hfind "PROD").1
      · exact ⟨Nat.find (hlive "PROD"), hg, (hfind "PROD").1, (hfind "PROD").2⟩
    · have hg : generate_unique_sku skuExists (some s) tokens hlive =
          match (List.range' 1 9999).find?
              (fun k => !skuExists (cleanBase s ++ "-" ++ pad4 k)) with
          | some k => cleanBase s ++ "-" ++ pad4 k
          | none => cleanBase s ++ "-" ++ tokens (Nat.find (hlive (cleanBase s))) := by
        conv_lhs => rw [generate_unique_sku]
        rw [if_neg (by simp [hs])]
      rcases hf : (List.range' 1 9999).find?
          (fun k => !skuExists (cleanBase s ++ "-" ++ pad4 k)) with _ | k
      · have hall : ∀ k, 1 ≤ k → k ≤ 9999 →
            skuExists (cleanBase s ++ "-" ++ pad4 k) = true := by
          intro k hk1 hk2
          have := List.find?_eq_none.mp hf k (by rw [List.mem_range'_1]; omega)
          simpa using this
        have hg2 : generate_unique_sku skuExists (some s) tokens hlive =
            cleanBase s ++ "-" ++ tokens (Nat.find (hlive (cleanBase s))) := by
          rw [hg, hf]
        refine ⟨?_, ?_, ?_, ?_⟩
        · rw [hg2]; exact (hfind (cleanBase s)).1
        · intro s' hs' hne k hk1 hk2 hfree
          rw [← Option.some.inj hs'] at hfree
          exact absurd (hall k hk1 hk2) (by simp [hfree])
        · intro s' hs' hne _
          rw [← Option.some.inj hs']
          exact ⟨Nat.find (hlive (cleanBase s)), hg2,
            (hfind (cleanBase s)).1, (hfind (cleanBase s)).2⟩
        · intro h
          rcases h with h | h
          · exact absurd h (by simp)
          · exact absurd (Option.some.inj h) hs
      · obtain ⟨hk1, hk2, hk3, hk4⟩ := find?_range'_min _ 9999 1 k hf
        have hkfree : skuExists (cleanBase s ++ "-" ++ pad4 k) = false := by
          simpa using hk1
        have hmin : ∀ j, 1 ≤ j → j < k →
            skuExists (cleanBase s ++ "-" ++ pad4 j) = true := by
          intro j hj1 hj2
          have := hk4 j hj1 hj2
          simpa using this
        have hg2 : generate_unique_sku skuExists (some s) tokens hlive =
            cleanBase s ++ "-" ++ pad4 k := by
          rw [hg, hf]
        refine ⟨?_, ?_, ?_, ?_⟩
        · rw [hg2]; exact hkfree
        · intro s' hs' hne k' hk1' hk2' hfree
          rw [← Option.some.inj hs'] at hfree ⊢
          refine ⟨k, hk2, ?_, hkfree, hmin, hg2⟩
          by_contra hlt
          exact absurd (hmin k' hk1' (by omega)) (by simp [hfree])
        · intro s' hs' hne hall
          rw [← Option.some.inj hs'] at hall
          exact absurd (hall k hk2 (by omega)) (by simp [hkfree])
        · intro h
          rcases h with h | h
          · exact absurd h (by simp)
          · exact absurd (Option.some.inj h) hs

/-- Witness for C4 (amended): no SKU exists yet, base name "A": the counter
loop returns the least free counter, here 1, i.e. the SKU `A-0001`. -/
theorem generate_unique_sku_spec_w :
    ∃ k0, 1 ≤ k0 ∧ k0 ≤ 1 ∧
      (fun _ : String => false) (cleanBase "A" ++ "-" ++ pad4 k0) = false ∧
      (∀ j, 1 ≤ j → j < k0 →
        (fun _ : String => false) (cleanBase "A" ++ "-" ++ pad4 j) = true) ∧
      generate_unique_sku (fun _ => false) (some "A") (fun _ => "4A9G71BQ")
          (fun _ => ⟨0, rfl⟩) = cleanBase "A" ++ "-" ++ pad4 k0 :=
  (generate_unique_sku_spec (fun _ => false) (some "A") (fun _ => "4A9G71BQ")
    (fun _ => ⟨0, rfl⟩)).2.1 "A" rfl (by decide) 1 (by decide) (by decide) rfl

end ProductApi
